import Mathlib

/-!
Verification development for the nostr-sync-app document revision engine.

The definitions below are a shallow embedding of the TypeScript sources:
the NIP-DB library (`parseRevisionId`, `computeRevisionHash`,
`createRevisionId`, `selectWinningRevision`, `eventToRevision`,
`buildDocument`, `createDocumentTags`, `DocumentStore`), the orchestrator
hook (`createDocument`, `updateDocument` from `use-nip-db.ts`), and the
pending-changes slot of the relay client's `fetchChanges`.

JavaScript-specific behaviour is modelled explicitly:
- `parseInt(s, 10)` returning `NaN` is modelled as `Option Int` with
  `none` playing the role of `NaN`;
- string truthiness (`!s` is true for the empty string) is modelled by
  `jsTruthy`;
- `String.prototype.localeCompare` and the `<`/`>` string operators are
  modelled as code-point lexicographic comparison (exact for the
  lowercase hex hash strings this system produces and compares);
- `Array.prototype.sort` is modelled as a stable sort (ECMAScript
  requires stability) whose comparator result `NaN` is treated as `0`
  (per the `SortCompare` abstract operation); the fact that `sort`
  mutates its receiver in place is reflected in `DocumentStore.addRevision`,
  which stores the sorted array;
- `TextEncoder().encode` is UTF-8 encoding; `@noble/hashes` `sha256` and
  `bytesToHex` are implemented in full below.
-/

namespace NipDb

/-! ### Code-point comparison (models JS string relational operators and
`localeCompare` on the hash strings used here) -/

def charListOrd : List Char → List Char → Ordering
  | [], [] => Ordering.eq
  | [], _ :: _ => Ordering.lt
  | _ :: _, [] => Ordering.gt
  | a :: as, b :: bs =>
    if a.toNat < b.toNat then Ordering.lt
    else if b.toNat < a.toNat then Ordering.gt
    else charListOrd as bs

/-- JS `a > b` on strings (code-unit lexicographic). -/
def jsStrGt (a b : String) : Bool := charListOrd a.data b.data == Ordering.gt

/-- JS `a.localeCompare(b)` rendered as an `Int` sign value; modelled as
code-point comparison, which agrees with the default collation on the
lowercase hexadecimal hash strings compared by this program. -/
def strCompareInt (a b : String) : Int :=
  match charListOrd a.data b.data with
  | Ordering.lt => -1
  | Ordering.eq => 0
  | Ordering.gt => 1

/-! ### JS `split` on a single-character separator -/

def splitOnChar (sep : Char) : List Char → List (List Char)
  | [] => [[]]
  | c :: rest =>
    match splitOnChar sep rest with
    | [] => [[]]
    | grp :: grps => if c = sep then [] :: grp :: grps else (c :: grp) :: grps

/-! ### JS `parseInt(s, 10)`; `none` models `NaN` -/

def leadingDigits : List Char → List Char
  | [] => []
  | c :: cs => if c.isDigit then c :: leadingDigits cs else []

def digitsToNat (cs : List Char) : Nat :=
  cs.foldl (fun a c => a * 10 + (c.toNat - 48)) 0

def parseIntAfterSpace : List Char → Option Int
  | '-' :: rest =>
    let ds := leadingDigits rest
    if ds.isEmpty then none else some (-(digitsToNat ds : Int))
  | '+' :: rest =>
    let ds := leadingDigits rest
    if ds.isEmpty then none else some (digitsToNat ds : Int)
  | cs =>
    let ds := leadingDigits cs
    if ds.isEmpty then none else some (digitsToNat ds : Int)

/-- `parseInt(s, 10)`: skip leading whitespace, optional sign, longest
digit prefix; `NaN` (= `none`) when no digits follow. -/
def parseInt10 (cs : List Char) : Option Int :=
  parseIntAfterSpace (cs.dropWhile Char.isWhitespace)

/-- JS number-to-string for the values reachable here (`NaN` prints as
`"NaN"`, integers in decimal). -/
def jsNumToString : Option Int → String
  | some i => toString i
  | none => "NaN"

/-- JS `===` on numbers that may be `NaN`: `NaN === x` is always false. -/
def genEq : Option Int → Option Int → Bool
  | some a, some b => a == b
  | _, _ => false

/-- JS `opt || dflt` for an optional string (empty string is falsy). -/
def jsOrDefault (o : Option String) (dflt : String) : String :=
  match o with
  | some s => if s = "" then dflt else s
  | none => dflt

/-- JS truthiness filter for an optional string: `undefined` and `""`
are falsy. -/
def jsTruthy (o : Option String) : Option String :=
  o.bind (fun s => if s = "" then none else some s)

/-! ### UTF-8 (`TextEncoder().encode`) -/

def utf8EncodeChar (c : Char) : List Nat :=
  let n := c.toNat
  if n < 128 then [n]
  else if n < 2048 then [192 + n / 64, 128 + n % 64]
  else if n < 65536 then [224 + n / 4096, 128 + (n / 64) % 64, 128 + n % 64]
  else [240 + n / 262144, 128 + (n / 4096) % 64, 128 + (n / 64) % 64, 128 + n % 64]

def utf8Encode (s : String) : List Nat :=
  (s.data.map utf8EncodeChar).flatten

/-! ### SHA-256 (FIPS 180-4), words as `Nat` reduced mod 2^32 -/

def w32 : Nat := 4294967296

def rotr (n x : Nat) : Nat := ((x >>> n) ||| (x <<< (32 - n))) % w32

def bsig0 (x : Nat) : Nat := (rotr 2 x) ^^^ (rotr 13 x) ^^^ (rotr 22 x)
def bsig1 (x : Nat) : Nat := (rotr 6 x) ^^^ (rotr 11 x) ^^^ (rotr 25 x)
def lsig0 (x : Nat) : Nat := (rotr 7 x) ^^^ (rotr 18 x) ^^^ (x >>> 3)
def lsig1 (x : Nat) : Nat := (rotr 17 x) ^^^ (rotr 19 x) ^^^ (x >>> 10)

def chFn (x y z : Nat) : Nat := (x &&& y) ^^^ ((x ^^^ (w32 - 1)) &&& z)
def majFn (x y z : Nat) : Nat := (x &&& y) ^^^ (x &&& z) ^^^ (y &&& z)

def sha256K : List Nat :=
  [1116352408, 1899447441, 3049323471, 3921009573, 961987163, 1508970993,
   2453635748, 2870763221, 3624381080, 310598401, 607225278, 1426881987,
   1925078388, 2162078206, 2614888103, 3248222580, 3835390401, 4022224774,
   264347078, 604807628, 770255983, 1249150122, 1555081692, 1996064986,
   2554220882, 2821834349, 2952996808, 3210313671, 3336571891, 3584528711,
   113926993, 338241895, 666307205, 773529912, 1294757372, 1396182291,
   1695183700, 1986661051, 2177026350, 2456956037, 2730485921, 2820302411,
   3259730800, 3345764771, 3516065817, 3600352804, 4094571909, 275423344,
   430227734, 506948616, 659060556, 883997877, 958139571, 1322822218,
   1537002063, 1747873779, 1955562222, 2024104815, 2227730452, 2361852424,
   2428436474, 2756734187, 3204031479, 3329325298]

def sha256Init : List Nat :=
  [1779033703, 3144134277, 1013904242, 2773480762,
   1359893119, 2600822924, 528734635, 1541459225]

/-- Message padding: append 0x80, zeros to 56 mod 64, then the bit length
as 8 big-endian bytes. -/
def sha256Pad (msg : List Nat) : List Nat :=
  let len := msg.length
  let zeroCount := (119 - (len % 64)) % 64
  let bitLen := len * 8
  msg ++ [128] ++ List.replicate zeroCount 0 ++
    [(bitLen >>> 56) % 256, (bitLen >>> 48) % 256, (bitLen >>> 40) % 256,
     (bitLen >>> 32) % 256, (bitLen >>> 24) % 256, (bitLen >>> 16) % 256,
     (bitLen >>> 8) % 256, bitLen % 256]

def bytesToWords : List Nat → List Nat
  | b0 :: b1 :: b2 :: b3 :: rest =>
    (b0 * 16777216 + b1 * 65536 + b2 * 256 + b3) :: bytesToWords rest
  | _ => []

def chunkWords : List Nat → List (List Nat)
  | a1 :: a2 :: a3 :: a4 :: a5 :: a6 :: a7 :: a8 ::
    a9 :: a10 :: a11 :: a12 :: a13 :: a14 :: a15 :: a16 :: rest =>
    [a1, a2, a3, a4, a5, a6, a7, a8, a9, a10, a11, a12, a13, a14, a15, a16] ::
      chunkWords rest
  | _ => []

/-- Extend a 16-word block to the 64-word message schedule. -/
def extendSchedule (ws : List Nat) (k : Nat) : List Nat :=
  match k with
  | 0 => ws
  | k + 1 =>
    let i := ws.length
    let wi := (lsig1 (ws.getD (i - 2) 0) + ws.getD (i - 7) 0 +
               lsig0 (ws.getD (i - 15) 0) + ws.getD (i - 16) 0) % w32
    extendSchedule (ws ++ [wi]) k

def roundStep (st : List Nat) (kw : Nat × Nat) : List Nat :=
  match st with
  | [a, b, c, d, e, f, g, h] =>
    let t1 := (h + bsig1 e + chFn e f g + kw.1 + kw.2) % w32
    let t2 := (bsig0 a + majFn a b c) % w32
    [(t1 + t2) % w32, a, b, c, (d + t1) % w32, e, f, g]
  | st => st

def compressBlock (h : List Nat) (block : List Nat) : List Nat :=
  let sched := extendSchedule block 48
  let fin := (sha256K.zip sched).foldl roundStep h
  (h.zip fin).map (fun p => (p.1 + p.2) % w32)

def sha256 (msg : List Nat) : List Nat :=
  let blocks := chunkWords (bytesToWords (sha256Pad msg))
  let h := blocks.foldl compressBlock sha256Init
  (h.map (fun word => [(word >>> 24) % 256, (word >>> 16) % 256,
                       (word >>> 8) % 256, word % 256])).flatten

/-! ### `bytesToHex` from `@noble/hashes/utils` -/

def hexDigitChar (n : Nat) : Char :=
  if n < 10 then Char.ofNat (48 + n) else Char.ofNat (87 + n)

def bytesToHex (bs : List Nat) : String :=
  ⟨(bs.map (fun b => [hexDigitChar (b / 16), hexDigitChar (b % 16)])).flatten⟩

/-- Hex digest of the UTF-8 encoding of a string, i.e.
`bytesToHex(sha256(new TextEncoder().encode(s)))`. -/
def sha256Hex (s : String) : String := bytesToHex (sha256 (utf8Encode s))

/-- JS `s.substring(0, n)` for the strings used here. -/
def strTake (n : Nat) (s : String) : String := ⟨s.data.take n⟩

/-! ### Data model (`Document`, `DocumentRevision`, Nostr `Event`) -/

/-- A Nostr event envelope as consumed by the store (already validated
by the transport layer; `id` is the event id used for de-duplication). -/
structure Event where
  id : String
  kind : Int
  content : String
  tags : List (List String)
  created_at : Int
deriving DecidableEq

structure DocumentRevision where
  revisionId : String
  content : String
  prevRevisionIds : List String
  createdAt : Int
  eventId : String
  deleted : Bool
deriving DecidableEq

structure Document where
  id : String
  content : String
  revisionId : String
  prevRevisionIds : List String
  createdAt : Int
  eventId : String
  deleted : Bool
deriving DecidableEq

/-! ### RevisionId codec -/

structure ParsedRevisionId where
  generation : Option Int
  hash : String
deriving DecidableEq

/-- `parseRevisionId`: `revId.split("-")` destructured as
`[genStr, hash]`; `split` breaks at every `-`, the second field (or the
JS-falsy default `""`) becomes the hash, and `parseInt(genStr, 10)` the
generation (`none` models `NaN`). -/
def parseRevisionId (revId : String) : ParsedRevisionId :=
  let parts := splitOnChar '-' revId.data
  { generation := parseInt10 (parts.getD 0 [])
    hash := ⟨parts.getD 1 []⟩ }

/-- `computeRevisionHash(prevRev, content)`: `prevRev` is JS-falsy when
it is `null` or the empty string. -/
def computeRevisionHash (prevRev : Option String) (content : String) : String :=
  let contentHash := sha256Hex content
  match jsTruthy prevRev with
  | none => strTake 32 contentHash
  | some p =>
    let combined := p ++ ":" ++ contentHash
    strTake 32 (sha256Hex combined)

/-- `createRevisionId(generation, prevRev, content)` =
`` `${generation}-${hash}` ``. -/
def createRevisionId (generation : Option Int) (prevRev : Option String)
    (content : String) : String :=
  jsNumToString generation ++ "-" ++ computeRevisionHash prevRev content

/-! ### Conflict resolution -/

/-- The comparator passed to `revisions.sort` in `selectWinningRevision`:
higher generation first, then lexicographically higher hash first.  When
either generation is `NaN` the JS subtraction yields `NaN`, which the
ECMAScript `SortCompare` operation treats as `0`. -/
def revisionCompare (a b : DocumentRevision) : Int :=
  let parsedA := parseRevisionId a.revisionId
  let parsedB := parseRevisionId b.revisionId
  match parsedB.generation, parsedA.generation with
  | some gb, some ga =>
    if gb ≠ ga then gb - ga
    else strCompareInt parsedB.hash parsedA.hash
  | _, _ => 0

def revisionLt (a b : DocumentRevision) : Bool := revisionCompare a b < 0

/-- Stable insertion used to model `Array.prototype.sort` (stable per
ECMAScript 2019+). -/
def insertSorted (x : DocumentRevision) : List DocumentRevision → List DocumentRevision
  | [] => [x]
  | y :: ys => if revisionLt x y then x :: y :: ys else y :: insertSorted x ys

/-- The result of `revisions.sort(comparator)`.  Note the source's
`sort` also mutates the array it is given; `DocumentStore.addRevision`
below accounts for that aliasing. -/
def sortRevisions (revs : List DocumentRevision) : List DocumentRevision :=
  revs.foldl (fun acc x => insertSorted x acc) []

/-- `selectWinningRevision`: first element of the sorted array
(`undefined`, i.e. `none`, on an empty array). -/
def selectWinningRevision (revisions : List DocumentRevision) :
    Option DocumentRevision :=
  (sortRevisions revisions).head?

/-- `eventToRevision`: decode a Nostr event of a syncable kind
(40000–49999) into a `DocumentRevision`; `none` models `null`.  A `v`
tag without a value would contribute JS `undefined`; it is modelled as
`""` (it can never equal a real revision id in the comparisons made). -/
def eventToRevision (event : Event) : Option DocumentRevision :=
  if event.kind < 40000 ∨ 50000 ≤ event.kind then none
  else
    let dTag := jsTruthy ((event.tags.find? (fun t => t.head? == some "d")).bind (fun t => t[1]?))
    let iTag := jsTruthy ((event.tags.find? (fun t => t.head? == some "i")).bind (fun t => t[1]?))
    let vTags := (event.tags.filter (fun t => t.head? == some "v")).map (fun t => (t[1]?).getD "")
    let deleted := event.tags.any (fun t => t.head? == some "deleted")
    match dTag, iTag with
    | some _, some iTagVal =>
      some { revisionId := iTagVal
             content := event.content
             prevRevisionIds := vTags
             createdAt := event.created_at
             eventId := event.id
             deleted := deleted }
    | _, _ => none

/-- `buildDocument`: materialize the winning revision, or `null` for an
empty history. -/
def buildDocument (docId : String) (revisions : List DocumentRevision) :
    Option Document :=
  if revisions.length = 0 then none
  else
    match selectWinningRevision revisions with
    | none => none
    | some winning =>
      some { id := docId
             content := winning.content
             revisionId := winning.revisionId
             prevRevisionIds := winning.prevRevisionIds
             createdAt := winning.createdAt
             eventId := winning.eventId
             deleted := winning.deleted }

/-- `createDocumentTags`. -/
def createDocumentTags (docId revisionId : String)
    (prevRevisionIds : List String) (deleted : Bool) : List (List String) :=
  [["d", docId], ["i", revisionId]] ++
    prevRevisionIds.map (fun prevRev => ["v", prevRev]) ++
    (if deleted then [["deleted", ""]] else [])

/-! ### JS `Map` as an association list (insertion order preserved,
`set` on an existing key replaces in place) -/

def mapGet {α : Type} (k : String) : List (String × α) → Option α
  | [] => none
  | (k', v) :: rest => if k' = k then some v else mapGet k rest

def mapSet {α : Type} (k : String) (v : α) : List (String × α) → List (String × α)
  | [] => [(k, v)]
  | (k', v') :: rest => if k' = k then (k, v) :: rest else (k', v') :: mapSet k v rest

def mapValues {α : Type} (m : List (String × α)) : List α := m.map Prod.snd

/-! ### `DocumentStore` -/

structure DocumentStore where
  documents : List (String × Document)
  revisions : List (String × List DocumentRevision)
  cachedDocuments : List Document
deriving DecidableEq

def emptyStore : DocumentStore := { documents := [], revisions := [], cachedDocuments := [] }

structure AddResult where
  accepted : Bool
  reason : Option String
deriving DecidableEq

/-- The set of revision ids referenced as a parent (`v` tag) by the
existing history or by the new revision (a JS `Set`, modelled as a list
used only through membership). -/
def referencedOf (docRevisions : List DocumentRevision)
    (revision : DocumentRevision) : List String :=
  docRevisions.foldl (fun acc r => acc ++ r.prevRevisionIds) [] ++
    revision.prevRevisionIds

/-- The `for` loop of `addRevision` over the existing revisions at the
incoming revision's generation: the first same-generation entry that is
chain-referenced, or that has the lexicographically greater hash,
produces the rejection reason. -/
def findConflict (dTag : String) (referenced : List String)
    (newParsed : ParsedRevisionId) : List DocumentRevision → Option String
  | [] => none
  | existing :: rest =>
    let existingParsed := parseRevisionId existing.revisionId
    if genEq existingParsed.generation newParsed.generation then
      if referenced.contains existing.revisionId then
        some ("Document \"" ++ dTag ++ "\" already has a revision at generation "
          ++ jsNumToString newParsed.generation ++ " that is part of the revision chain")
      else if jsStrGt existingParsed.hash newParsed.hash then
        some ("Document \"" ++ dTag ++ "\" already has a winning revision at generation "
          ++ jsNumToString newParsed.generation)
      else findConflict dTag referenced newParsed rest
    else findConflict dTag referenced newParsed rest

/-- The pruning filter of `addRevision`: keep every revision at another
generation; at the incoming generation keep only chain-referenced
revisions and revisions with a strictly greater hash. -/
def pruneDominated (referenced : List String) (newParsed : ParsedRevisionId)
    (docRevisions : List DocumentRevision) : List DocumentRevision :=
  docRevisions.filter (fun existing =>
    let existingParsed := parseRevisionId existing.revisionId
    if genEq existingParsed.generation newParsed.generation then
      if referenced.contains existing.revisionId then true
      else jsStrGt existingParsed.hash newParsed.hash
    else true)

/-- `notifyListeners`: refresh the cached non-deleted snapshot before
invoking the registered callbacks. -/
def notifyListeners (store : DocumentStore) : DocumentStore :=
  { store with cachedDocuments := (mapValues store.documents).filter (fun d => !d.deleted) }

/-- `DocumentStore.addRevision`.  Returns the structured result, the
post-call store, and whether `notifyListeners` ran (observers were
invoked).  The function is total: every data-shape problem is reported
as `accepted := false` with a reason, never an exception.

The stored history becomes the *sorted* array: `buildDocument` calls
`selectWinningRevision`, whose `Array.prototype.sort` mutates in place
the very array that was just `set` into `this.revisions`. -/
def addRevision (store : DocumentStore) (event : Event) :
    AddResult × DocumentStore × Bool :=
  match eventToRevision event with
  | none => ({ accepted := false, reason := some "Invalid event format" }, store, false)
  | some revision =>
    match jsTruthy ((event.tags.find? (fun t => t.head? == some "d")).bind (fun t => t[1]?)) with
    | none => ({ accepted := false, reason := some "Missing document ID (d tag)" }, store, false)
    | some dTag =>
      let store1 :=
        match mapGet dTag store.revisions with
        | some _ => store
        | none => { store with revisions := mapSet dTag [] store.revisions }
      let docRevisions := (mapGet dTag store1.revisions).getD []
      if docRevisions.any (fun r => r.eventId == event.id) then
        ({ accepted := true, reason := none }, store1, false)
      else
        let referenced := referencedOf docRevisions revision
        let newParsed := parseRevisionId revision.revisionId
        match findConflict dTag referenced newParsed docRevisions with
        | some reason => ({ accepted := false, reason := some reason }, store1, false)
        | none =>
          let filtered := pruneDominated referenced newParsed docRevisions ++ [revision]
          let store2 := { store1 with revisions := mapSet dTag (sortRevisions filtered) store1.revisions }
          let store3 :=
            match buildDocument dTag filtered with
            | some doc => { store2 with documents := mapSet dTag doc store2.documents }
            | none => store2
          ({ accepted := true, reason := none }, notifyListeners store3, true)

def getDocument (store : DocumentStore) (docId : String) : Option Document :=
  mapGet docId store.documents

def getRevisions (store : DocumentStore) (docId : String) : List DocumentRevision :=
  (mapGet docId store.revisions).getD []

def getAllDocuments (store : DocumentStore) : List Document := store.cachedDocuments

/-! ### Sync orchestrator (`use-nip-db.ts`) -/

/-- Kind used for the app's documents. -/
def DOC_KIND : Int := 40001

/-- `createDocument(docId, content)` from `use-nip-db.ts`, on the
successful-publish path: the signing/transport collaborator is external,
so the signed envelope's id and timestamp are parameters.  Admission
failure is the thrown `Error(result.reason || "Revision rejected")`. -/
def createDocument (store : DocumentStore) (docId content : String)
    (eventId : String) (createdAt : Int) :
    Except String (Option Document) × DocumentStore :=
  let revisionId := createRevisionId (some 1) none content
  let tags := createDocumentTags docId revisionId [] false
  let event : Event :=
    { id := eventId, kind := DOC_KIND, content := content, tags := tags, created_at := createdAt }
  match addRevision store event with
  | (result, store1, _) =>
    if result.accepted then (Except.ok (getDocument store1 docId), store1)
    else (Except.error (jsOrDefault result.reason "Revision rejected"), store1)

/-- `updateDocument(docId, content)` from `use-nip-db.ts` (same external
boundary as `createDocument`): generation of the current winner plus
one, current winner's revision id as sole parent. -/
def updateDocument (store : DocumentStore) (docId content : String)
    (eventId : String) (createdAt : Int) :
    Except String (Option Document) × DocumentStore :=
  match getDocument store docId with
  | none => (Except.error "Document not found", store)
  | some currentDoc =>
    let currentRevision := parseRevisionId currentDoc.revisionId
    let newGeneration := currentRevision.generation.map (fun g => g + 1)
    let revisionId := createRevisionId newGeneration (some currentDoc.revisionId) content
    let tags := createDocumentTags docId revisionId [currentDoc.revisionId] false
    let event : Event :=
      { id := eventId, kind := DOC_KIND, content := content, tags := tags, created_at := createdAt }
    match addRevision store event with
    | (result, store1, _) =>
      if result.accepted then (Except.ok (getDocument store1 docId), store1)
      else (Except.error (jsOrDefault result.reason "Revision rejected"), store1)

/-! ### Relay client pending-changes slot (`fetchChanges`) -/

/-- The state of `useNostrRelay` relevant to the changes-feed query: the
socket and the single `pendingChangesRef` slot, holding the identifier
of the request whose resolve/reject pair occupies it. -/
structure RelayConnState where
  wsOpen : Bool
  pendingChanges : Option Nat
deriving DecidableEq

/-- The synchronous prefix of `fetchChanges` (the part that runs before
any response or timeout): throw if the socket is not open, otherwise
unconditionally install this request's handler pair in
`pendingChangesRef` — there is no check of an already pending query. -/
def fetchChangesStart (st : RelayConnState) (reqId : Nat) :
    Except String RelayConnState :=
  if st.wsOpen = false then Except.error "Not connected to relay"
  else Except.ok { st with pendingChanges := some reqId }

/-! ### Helper lemmas -/

theorem string_mk_data (s : String) : (⟨s.data⟩ : String) = s := by
  cases s
  rfl

theorem string_data_append (a b : String) : (a ++ b).data = a.data ++ b.data := by
  cases a
  cases b
  rfl

theorem mapGet_mapSet_self {α : Type} (k : String) (v : α)
    (m : List (String × α)) : mapGet k (mapSet k v m) = some v := by
  induction m with
  | nil => simp [mapGet, mapSet]
  | cons p rest ih =>
    by_cases h : p.1 = k
    · simp [mapGet, mapSet, h]
    · simp [mapGet, mapSet, h, ih]

theorem mem_insertSorted (x y : DocumentRevision) (l : List DocumentRevision)
    (h : y ∈ l ∨ y = x) : y ∈ insertSorted x l := by
  induction l with
  | nil =>
    rcases h with h | h
    · cases h
    · simp [insertSorted, h]
  | cons z rest ih =>
    simp only [insertSorted]
    split
    · rcases h with h | h
      · exact List.mem_cons_of_mem _ h
      · exact h ▸ List.mem_cons_self _ _
    · rcases h with h | h
      · rcases List.mem_cons.mp h with h | h
        · exact h ▸ List.mem_cons_self _ _
        · exact List.mem_cons_of_mem _ (ih (Or.inl h))
      · exact List.mem_cons_of_mem _ (ih (Or.inr h))

theorem mem_sortRevisions (x : DocumentRevision) (l : List DocumentRevision)
    (h : x ∈ l) : x ∈ sortRevisions l := by
  suffices H : ∀ (l : List DocumentRevision) (acc : List DocumentRevision),
      x ∈ acc ∨ x ∈ l → x ∈ l.foldl (fun acc y => insertSorted y acc) acc by
    exact H l [] (Or.inr h)
  intro l
  induction l with
  | nil =>
    intro acc hacc
    rcases hacc with hacc | hacc
    · simpa using hacc
    · cases hacc
  | cons z rest ih =>
    intro acc hacc
    simp only [List.foldl_cons]
    apply ih
    rcases hacc with hacc | hacc
    · exact Or.inl (mem_insertSorted z x acc (Or.inl hacc))
    · rcases List.mem_cons.mp hacc with hacc | hacc
      · exact Or.inl (mem_insertSorted z x acc (Or.inr hacc))
      · exact Or.inr hacc

theorem eventToRevision_eventId (e : Event) (r : DocumentRevision)
    (h : eventToRevision e = some r) : r.eventId = e.id := by
  unfold eventToRevision at h
  split at h
  · cases h
  · dsimp only at h
    split at h
    · cases h
      rfl
    · cases h

theorem findConflict_isSome_of_referenced (dTag : String) (referenced : List String)
    (p : ParsedRevisionId) (l : List DocumentRevision) (e : DocumentRevision)
    (hmem : e ∈ l)
    (hgen : genEq (parseRevisionId e.revisionId).generation p.generation = true)
    (href : referenced.contains e.revisionId = true) :
    (findConflict dTag referenced p l).isSome = true := by
  induction l with
  | nil => cases hmem
  | cons z rest ih =>
    rcases List.mem_cons.mp hmem with rfl | hmem'
    · simp only [findConflict, hgen, href, if_true]
      rfl
    · simp only [findConflict]
      split
      · split
        · rfl
        · split
          · rfl
          · exact ih hmem'
      · exact ih hmem'

theorem splitOnChar_of_not_mem (sep : Char) (cs : List Char) (h : sep ∉ cs) :
    splitOnChar sep cs = [cs] := by
  induction cs with
  | nil => rfl
  | cons c rest ih =>
    have hc : c ≠ sep := fun hh => h (hh ▸ List.mem_cons_self _ _)
    have hrest : sep ∉ rest := fun hh => h (List.mem_cons_of_mem _ hh)
    simp only [splitOnChar, ih hrest]
    simp [hc]

theorem splitOnChar_ne_nil (sep : Char) (cs : List Char) :
    splitOnChar sep cs ≠ [] := by
  cases cs with
  | nil => simp [splitOnChar]
  | cons c rest =>
    simp only [splitOnChar]
    split
    · simp
    · split <;> simp

theorem splitOnChar_append (sep : Char) (g rest : List Char) (h : sep ∉ g) :
    splitOnChar sep (g ++ sep :: rest) = g :: splitOnChar sep rest := by
  induction g with
  | nil =>
    simp only [List.nil_append, splitOnChar]
    cases hs : splitOnChar sep rest with
    | nil => exact absurd hs (splitOnChar_ne_nil sep rest)
    | cons q qs => simp
  | cons c g' ih =>
    have hc : c ≠ sep := fun hh => h (hh ▸ List.mem_cons_self _ _)
    have hg' : sep ∉ g' := fun hh => h (List.mem_cons_of_mem _ hh)
    rw [List.cons_append]
    simp only [splitOnChar]
    rw [ih hg']
    simp [hc]

/-- `parseRevisionId` on a well-formed two-field id whose fields contain
no separator. -/
theorem parseRevisionId_concat (g h : String) (hg : '-' ∉ g.data)
    (hh : '-' ∉ h.data) :
    parseRevisionId (g ++ "-" ++ h) = ⟨parseInt10 g.data, h⟩ := by
  unfold parseRevisionId
  have hd : (g ++ "-" ++ h).data = g.data ++ '-' :: h.data := by
    rw [string_data_append, string_data_append, List.append_assoc]
    rfl
  rw [hd, splitOnChar_append _ _ _ hg, splitOnChar_of_not_mem _ _ hh]
  simp [string_mk_data]

theorem charListOrd_eq_iff (a b : List Char) :
    charListOrd a b = Ordering.eq ↔ a = b := by
  induction a generalizing b with
  | nil =>
    cases b <;> simp [charListOrd]
  | cons x xs ih =>
    cases b with
    | nil => simp [charListOrd]
    | cons y ys =>
      simp only [charListOrd]
      by_cases h1 : x.toNat < y.toNat
      · simp only [h1, if_true]
        constructor
        · intro hc; cases hc
        · intro hc
          injection hc with hxy _
          subst hxy
          exact absurd h1 (lt_irrefl _)
      · by_cases h2 : y.toNat < x.toNat
        · simp only [h1, h2, if_false, if_true]
          constructor
          · intro hc; cases hc
          · intro hc
            injection hc with hxy _
            subst hxy
            exact absurd h2 (lt_irrefl _)
        · have hval : x.toNat = y.toNat := by omega
          have hxy : x = y := Char.ext (UInt32.ext_iff.mpr hval)
          subst hxy
          simp [h1, h2, ih]

theorem charListOrdSwapGt (a b : List Char)
    (h : charListOrd a b = Ordering.lt) : charListOrd b a = Ordering.gt := by
  induction a generalizing b with
  | nil =>
    cases b with
    | nil => simp [charListOrd] at h
    | cons y ys => simp [charListOrd]
  | cons x xs ih =>
    cases b with
    | nil => simp [charListOrd] at h
    | cons y ys =>
      simp only [charListOrd] at h ⊢
      by_cases h1 : x.toNat < y.toNat
      · have h2 : ¬ y.toNat < x.toNat := Nat.lt_asymm h1
        simp [h1, h2]
      · by_cases h2 : y.toNat < x.toNat
        · simp [h1, h2] at h
        · simp only [h1, h2, if_false] at h ⊢
          exact ih ys h

/-! ### Defining equations of `addRevision`, one per control path -/

theorem addRevision_eq_invalid (store : DocumentStore) (event : Event)
    (h : eventToRevision event = none) :
    addRevision store event =
      ({ accepted := false, reason := some "Invalid event format" }, store, false) := by
  unfold addRevision
  simp only [h]

theorem addRevision_eq_missing_d (store : DocumentStore) (event : Event)
    (revision : DocumentRevision)
    (h1 : eventToRevision event = some revision)
    (h2 : jsTruthy ((event.tags.find? (fun t => t.head? == some "d")).bind (fun t => t[1]?)) = none) :
    addRevision store event =
      ({ accepted := false, reason := some "Missing document ID (d tag)" }, store, false) := by
  unfold addRevision
  simp only [h1, h2]

theorem addRevision_eq_main (store : DocumentStore) (event : Event)
    (revision : DocumentRevision) (dTag : String) (l : List DocumentRevision)
    (h1 : eventToRevision event = some revision)
    (h2 : jsTruthy ((event.tags.find? (fun t => t.head? == some "d")).bind (fun t => t[1]?)) = some dTag)
    (h3 : mapGet dTag store.revisions = some l) :
    addRevision store event =
      (if (l.any fun r => r.eventId == event.id) = true then
        ({ accepted := true, reason := none }, store, false)
      else
        match findConflict dTag (referencedOf l revision)
            (parseRevisionId revision.revisionId) l with
        | some reason => ({ accepted := false, reason := some reason }, store, false)
        | none =>
          ({ accepted := true, reason := none },
            notifyListeners
              (match buildDocument dTag
                  (pruneDominated (referencedOf l revision)
                    (parseRevisionId revision.revisionId) l ++ [revision]) with
               | some doc =>
                 { documents := mapSet dTag doc store.documents,
                   revisions := mapSet dTag (sortRevisions
                     (pruneDominated (referencedOf l revision)
                       (parseRevisionId revision.revisionId) l ++ [revision])) store.revisions,
                   cachedDocuments := store.cachedDocuments }
               | none =>
                 { documents := store.documents,
                   revisions := mapSet dTag (sortRevisions
                     (pruneDominated (referencedOf l revision)
                       (parseRevisionId revision.revisionId) l ++ [revision])) store.revisions,
                   cachedDocuments := store.cachedDocuments }),
            true)) := by
  unfold addRevision
  simp only [h1, h2, h3, Option.getD_some]

theorem addRevision_eq_fresh (store : DocumentStore) (event : Event)
    (revision : DocumentRevision) (dTag : String)
    (h1 : eventToRevision event = some revision)
    (h2 : jsTruthy ((event.tags.find? (fun t => t.head? == some "d")).bind (fun t => t[1]?)) = some dTag)
    (h3 : mapGet dTag store.revisions = none) :
    addRevision store event =
      ({ accepted := true, reason := none },
        notifyListeners
          (match buildDocument dTag [revision] with
           | some doc =>
             { documents := mapSet dTag doc store.documents,
               revisions := mapSet dTag (sortRevisions [revision]) (mapSet dTag [] store.revisions),
               cachedDocuments := store.cachedDocuments }
           | none =>
             { documents := store.documents,
               revisions := mapSet dTag (sortRevisions [revision]) (mapSet dTag [] store.revisions),
               cachedDocuments := store.cachedDocuments }),
        true) := by
  unfold addRevision
  simp only [h1, h2, h3, mapGet_mapSet_self, Option.getD_some, List.any_nil,
    Bool.false_eq_true, if_false, findConflict, pruneDominated, List.filter_nil,
    List.nil_append]

/-! ### Claim theorems -/

/-- C10: `addRevision` rejects every event whose kind is below 40000 or
at least 50000 with reason "Invalid event format", leaves the store
unchanged and notifies no observer, regardless of the event's tags:
the kind-range check in `eventToRevision` is an admission precondition
in addition to the tag requirements. -/
theorem addRevision_rejects_out_of_range_kind (store : DocumentStore) (event : Event)
    (h : event.kind < 40000 ∨ 50000 ≤ event.kind) :
    addRevision store event =
      ({ accepted := false, reason := some "Invalid event format" }, store, false) := by
  have he : eventToRevision event = none := by
    unfold eventToRevision
    exact if_pos h
  unfold addRevision
  rw [he]

/-- An event of kind 1 with well-formed `d` and `i` tags. -/
def kindOneEvent : Event :=
  { id := "ev-10", kind := 1, content := "c",
    tags := [["d", "doc-10"], ["i", "1-ff"]], created_at := 0 }

/-- Witness for C10 at a concrete event of kind 1 carrying valid
document-ID and revision-ID tags. -/
theorem addRevision_rejects_out_of_range_kind_witness :
    (kindOneEvent.kind < 40000 ∨ 50000 ≤ kindOneEvent.kind) ∧
    addRevision emptyStore kindOneEvent =
      ({ accepted := false, reason := some "Invalid event format" }, emptyStore, false) :=
  ⟨Or.inl (by decide),
   addRevision_rejects_out_of_range_kind emptyStore kindOneEvent (Or.inl (by decide))⟩

/-- C6: admission is atomic with respect to observers.  Whenever
`addRevision` reports `accepted := false` the store (hence every
materialized `Document` and every revision history) is unchanged, no
observer callback is invoked (`notifyListeners` did not run), and the
rejection carries a structured reason; rejection is a return value, not
an exception (`addRevision` is a total function). -/
theorem addRevision_rejection_is_atomic (store : DocumentStore) (event : Event)
    (h : (addRevision store event).1.accepted = false) :
    (addRevision store event).2.1 = store ∧
    (addRevision store event).2.2 = false ∧
    (addRevision store event).1.reason.isSome = true := by
  cases hev : eventToRevision event with
  | none =>
    rw [addRevision_eq_invalid store event hev]
    exact ⟨rfl, rfl, rfl⟩
  | some revision =>
    cases hdt : jsTruthy ((event.tags.find? (fun t => t.head? == some "d")).bind (fun t => t[1]?)) with
    | none =>
      rw [addRevision_eq_missing_d store event revision hev hdt]
      exact ⟨rfl, rfl, rfl⟩
    | some dTag =>
      cases hm : mapGet dTag store.revisions with
      | none =>
        rw [addRevision_eq_fresh store event revision dTag hev hdt hm] at h
        simp at h
      | some l =>
        rw [addRevision_eq_main store event revision dTag l hev hdt hm] at h ⊢
        by_cases hdup : (l.any fun r => r.eventId == event.id) = true
        · rw [if_pos hdup] at h
          simp at h
        · rw [if_neg hdup] at h ⊢
          revert h
          cases hfc : findConflict dTag (referencedOf l revision)
              (parseRevisionId revision.revisionId) l with
          | some reason => intro _; exact ⟨rfl, rfl, rfl⟩
          | none =>
            intro h
            simp at h

/-- An event whose incoming generation-1 revision loses the hash
tie-break against an existing generation-1 revision. -/
def losingEvent : Event :=
  { id := "ev-60", kind := 40001, content := "x",
    tags := [["d", "doc-6"], ["i", "1-aa"]], created_at := 5 }

/-- A store already holding a generation-1 revision of `doc-6` with a
lexicographically higher hash. -/
def storeWithWinner : DocumentStore :=
  { documents := [("doc-6",
      { id := "doc-6", content := "w", revisionId := "1-zz", prevRevisionIds := [],
        createdAt := 1, eventId := "ev-61", deleted := false })],
    revisions := [("doc-6",
      [{ revisionId := "1-zz", content := "w", prevRevisionIds := [],
         createdAt := 1, eventId := "ev-61", deleted := false }])],
    cachedDocuments := [] }

/-- Witness for C6 at a concrete rejected admission. -/
theorem addRevision_rejection_is_atomic_witness :
    (addRevision storeWithWinner losingEvent).1.accepted = false ∧
    ((addRevision storeWithWinner losingEvent).2.1 = storeWithWinner ∧
     (addRevision storeWithWinner losingEvent).2.2 = false ∧
     (addRevision storeWithWinner losingEvent).1.reason.isSome = true) :=
  ⟨by decide, addRevision_rejection_is_atomic storeWithWinner losingEvent (by decide)⟩

/-- C8 (code bug): `fetchChanges` issued while a previous changes query
is still pending does not fail fast — the synchronous prefix of the
call succeeds and unconditionally replaces the pending slot's handler
pair with the new request's, displacing the first pending operation. -/
theorem fetchChanges_overwrites_pending_slot :
    fetchChangesStart { wsOpen := true, pendingChanges := some 1 } 2 =
      Except.ok { wsOpen := true, pendingChanges := some 2 } ∧
    ({ wsOpen := true, pendingChanges := some 2 } : RelayConnState) ≠
      { wsOpen := true, pendingChanges := some 1 } :=
  ⟨rfl, by decide⟩

/-- First admitted event of the C7 scenario: generation-1 revision of
`doc-7`. -/
def firstInsertedEvent : Event :=
  { id := "ev-71", kind := 40001, content := "first",
    tags := createDocumentTags "doc-7" "1-aa" [] false, created_at := 0 }

/-- Second admitted event of the C7 scenario: generation-2 revision with
the generation-1 revision as parent. -/
def secondInsertedEvent : Event :=
  { id := "ev-72", kind := 40001, content := "second",
    tags := createDocumentTags "doc-7" "2-bb" ["1-aa"] false, created_at := 1 }

/-- C7 (code bug): after admitting the generation-1 revision and then a
generation-2 revision, `getRevisions` returns `["2-bb", "1-aa"]` —
descending `(generation, hash)` order, not the insertion order
`["1-aa", "2-bb"]`: the `Array.prototype.sort` inside
`selectWinningRevision` mutates the stored history array in place. -/
theorem getRevisions_not_insertion_order :
    (getRevisions
        (addRevision (addRevision emptyStore firstInsertedEvent).2.1 secondInsertedEvent).2.1
        "doc-7").map (fun r => r.revisionId) = ["2-bb", "1-aa"] ∧
    (["2-bb", "1-aa"] : List String) ≠ ["1-aa", "2-bb"] := by
  decide

/-- C9 counterexample: `parseRevisionId` does **not** keep everything
after the first separator — `"1-a-b"` parses to hash `"a"`, not
`"a-b"`; and a separator-free string yields generation `NaN` (modelled
`none`), not generation `0`. -/
theorem parseRevisionId_counterexample :
    (parseRevisionId "1-a-b").hash = "a" ∧ ("a" : String) ≠ "a-b" ∧
    (parseRevisionId "abc").generation = none ∧ (none : Option Int) ≠ some 0 := by
  decide

/-- C9 (amended): `parseRevisionId` splits on **every** `-` and keeps
only the first two fields: for `g-h` with `g`,`h` separator-free the
result is `{parseInt(g), h}`; any characters after a second separator
are discarded; a separator-free string yields
`{parseInt(s) (NaN, i.e. none, when s has no leading integer), ""}`. -/
theorem parseRevisionId_splits_on_every_dash (g h rest : String)
    (hg : '-' ∉ g.data) (hh : '-' ∉ h.data) :
    parseRevisionId (g ++ "-" ++ h) = ⟨parseInt10 g.data, h⟩ ∧
    parseRevisionId (g ++ "-" ++ h ++ "-" ++ rest) = ⟨parseInt10 g.data, h⟩ ∧
    (∀ s : String, '-' ∉ s.data → parseRevisionId s = ⟨parseInt10 s.data, ""⟩) := by
  refine ⟨parseRevisionId_concat g h hg hh, ?_, ?_⟩
  · unfold parseRevisionId
    have hd : (g ++ "-" ++ h ++ "-" ++ rest).data =
        g.data ++ '-' :: (h.data ++ '-' :: rest.data) := by
      rw [string_data_append, string_data_append, string_data_append,
        string_data_append, List.append_assoc, List.append_assoc, List.append_assoc]
      rfl
    rw [hd, splitOnChar_append _ _ _ hg, splitOnChar_append _ _ _ hh]
    simp [string_mk_data]
  · intro s hs
    unfold parseRevisionId
    rw [splitOnChar_of_not_mem _ _ hs]
    simp

/-- Witness for the amended C9 at `g = "7"`, `h = "ab"`, `rest = "cd"`,
and separator-free string `"xyz"`. -/
theorem parseRevisionId_splits_on_every_dash_witness :
    parseRevisionId ("7" ++ "-" ++ "ab") = ⟨parseInt10 ("7" : String).data, "ab"⟩ ∧
    parseRevisionId ("7" ++ "-" ++ "ab" ++ "-" ++ "cd") = ⟨parseInt10 ("7" : String).data, "ab"⟩ ∧
    parseRevisionId "xyz" = ⟨parseInt10 ("xyz" : String).data, ""⟩ :=
  ⟨(parseRevisionId_splits_on_every_dash "7" "ab" "cd" (by decide) (by decide)).1,
   (parseRevisionId_splits_on_every_dash "7" "ab" "cd" (by decide) (by decide)).2.1,
   (parseRevisionId_splits_on_every_dash "7" "ab" "cd" (by decide) (by decide)).2.2
     "xyz" (by decide)⟩

/-- C5 counterexample: for the non-null (but JS-falsy) previous hash
`""`, `computeRevisionHash` takes the no-parent branch and does **not**
hash `"" ++ ":" ++ sha256Hex c`. -/
theorem computeRevisionHash_empty_prev_counterexample :
    computeRevisionHash (some "") "x" ≠
      strTake 32 (sha256Hex ("" ++ ":" ++ sha256Hex "x")) := by
  decide

/-- C5 (amended): for every content `c`, `computeRevisionHash null c` is
the first 32 hex characters of SHA-256(c); and for every **non-empty**
previous hash `p`, `computeRevisionHash p c` is the first 32 hex
characters of SHA-256 of `p ++ ":" ++ (SHA-256(c) as hex)`.  (The empty
string is JS-falsy and is treated like null by the source.) -/
theorem computeRevisionHash_spec (p c : String) (hp : p ≠ "") :
    computeRevisionHash none c = strTake 32 (sha256Hex c) ∧
    computeRevisionHash (some p) c =
      strTake 32 (sha256Hex (p ++ ":" ++ sha256Hex c)) := by
  constructor
  · rfl
  · unfold computeRevisionHash jsTruthy
    simp [hp]

/-- Witness for the amended C5 at `p = "ab"`, `c = "x"`. -/
theorem computeRevisionHash_spec_witness :
    ("ab" : String) ≠ "" ∧
    (computeRevisionHash none "x" = strTake 32 (sha256Hex "x") ∧
     computeRevisionHash (some "ab") "x" =
       strTake 32 (sha256Hex ("ab" ++ ":" ++ sha256Hex "x"))) :=
  ⟨by decide, computeRevisionHash_spec "ab" "x" (by decide)⟩

theorem notifyListeners_revisions (st : DocumentStore) :
    (notifyListeners st).revisions = st.revisions := rfl

/-- C2: in `addRevision`, for every incoming revision and every existing
revision `e` at the same generation, if `e.revisionId` belongs to the
referenced set (the union of all parent revision ids in the existing
history and in the incoming revision's own parents), the incoming
revision is rejected — with no assumption on the hashes, so in
particular even when the incoming hash is lexicographically greater
than `e`'s.  (The incoming event is a genuinely new delivery: its event
id is not already in the history, otherwise the idempotent
re-delivery check accepts it as a no-op before any conflict check.) -/
theorem addRevision_referenced_ancestor_rejected (store : DocumentStore) (event : Event)
    (revision e : DocumentRevision) (dTag : String) (l : List DocumentRevision)
    (h1 : eventToRevision event = some revision)
    (h2 : jsTruthy ((event.tags.find? (fun t => t.head? == some "d")).bind (fun t => t[1]?)) = some dTag)
    (h3 : mapGet dTag store.revisions = some l)
    (h4 : (l.any fun r => r.eventId == event.id) = false)
    (h5 : e ∈ l)
    (h6 : genEq (parseRevisionId e.revisionId).generation
            (parseRevisionId revision.revisionId).generation = true)
    (h7 : (referencedOf l revision).contains e.revisionId = true) :
    (addRevision store event).1.accepted = false := by
  rw [addRevision_eq_main store event revision dTag l h1 h2 h3]
  rw [if_neg (by simp [h4])]
  cases hfc : findConflict dTag (referencedOf l revision)
      (parseRevisionId revision.revisionId) l with
  | some reason => rfl
  | none =>
    have hs := findConflict_isSome_of_referenced dTag (referencedOf l revision)
      (parseRevisionId revision.revisionId) l e h5 h6 h7
    rw [hfc] at hs
    cases hs

/-- The store of the C2 witness: `doc-2` already holds the generation-2
revision `2-bb` and a generation-3 revision `3-cc` citing `2-bb` as
parent. -/
def storeWithChain : DocumentStore :=
  { documents := [("doc-2",
      { id := "doc-2", content := "w3", revisionId := "3-cc", prevRevisionIds := ["2-bb"],
        createdAt := 3, eventId := "ev-23", deleted := false })],
    revisions := [("doc-2",
      [{ revisionId := "3-cc", content := "w3", prevRevisionIds := ["2-bb"],
         createdAt := 3, eventId := "ev-23", deleted := false },
       { revisionId := "2-bb", content := "w2", prevRevisionIds := ["1-aa"],
         createdAt := 2, eventId := "ev-22", deleted := false },
       { revisionId := "1-aa", content := "w1", prevRevisionIds := [],
         createdAt := 1, eventId := "ev-21", deleted := false }])],
    cachedDocuments := [] }

/-- The C2 witness event: a generation-2 alternative `2-zz` whose hash
`zz` is lexicographically greater than the chained `2-bb`'s hash. -/
def higherHashAlternative : Event :=
  { id := "ev-24", kind := 40001, content := "alt",
    tags := [["d", "doc-2"], ["i", "2-zz"], ["v", "1-aa"]], created_at := 4 }

/-- Witness for C2: the higher-hash generation-2 alternative is rejected
because `2-bb` is referenced by the admitted generation-3 revision. -/
theorem addRevision_referenced_ancestor_rejected_witness :
    (addRevision storeWithChain higherHashAlternative).1.accepted = false :=
  addRevision_referenced_ancestor_rejected storeWithChain higherHashAlternative
    { revisionId := "2-zz", content := "alt", prevRevisionIds := ["1-aa"],
      createdAt := 4, eventId := "ev-24", deleted := false }
    { revisionId := "2-bb", content := "w2", prevRevisionIds := ["1-aa"],
      createdAt := 2, eventId := "ev-22", deleted := false }
    "doc-2"
    [{ revisionId := "3-cc", content := "w3", prevRevisionIds := ["2-bb"],
       createdAt := 3, eventId := "ev-23", deleted := false },
     { revisionId := "2-bb", content := "w2", prevRevisionIds := ["1-aa"],
       createdAt := 2, eventId := "ev-22", deleted := false },
     { revisionId := "1-aa", content := "w1", prevRevisionIds := [],
       createdAt := 1, eventId := "ev-21", deleted := false }]
    (by decide) (by decide) (by decide) (by decide) (by decide) (by decide) (by decide)

/-- C3 counterexample: the second application of `addRevision` for the
same envelope does **not** always report accepted — for an event the
store rejects (here: invalid kind), the second call rejects again. -/
theorem addRevision_second_call_not_always_accepted :
    (addRevision (addRevision emptyStore kindOneEvent).2.1 kindOneEvent).1.accepted = false := by
  decide

/-- C3 (amended): `addRevision` is idempotent on the store for **every**
event and store: re-applying the same envelope leaves the materialized
`Document` and the revision history exactly as after the first
application (in particular no duplicate history entry is added, the
re-delivery being detected through the event id); and whenever the
first call reported accepted, the second call also reports accepted (as
a no-op).  When the first call rejected, the second rejects identically
— which is the one point where the claim as stated fails. -/
theorem addRevision_idempotent (store : DocumentStore) (event : Event) :
    (addRevision (addRevision store event).2.1 event).2.1 = (addRevision store event).2.1 ∧
    ((addRevision store event).1.accepted = true →
     (addRevision (addRevision store event).2.1 event).1.accepted = true) := by
  cases hev : eventToRevision event with
  | none =>
    rw [addRevision_eq_invalid store event hev]
    dsimp only
    rw [addRevision_eq_invalid store event hev]
    refine ⟨rfl, fun h => ?_⟩
    simp at h
  | some revision =>
    have hid : revision.eventId = event.id := eventToRevision_eventId event revision hev
    cases hdt : jsTruthy ((event.tags.find? (fun t => t.head? == some "d")).bind (fun t => t[1]?)) with
    | none =>
      rw [addRevision_eq_missing_d store event revision hev hdt]
      dsimp only
      rw [addRevision_eq_missing_d store event revision hev hdt]
      refine ⟨rfl, fun h => ?_⟩
      simp at h
    | some dTag =>
      cases hm : mapGet dTag store.revisions with
      | none =>
        rw [addRevision_eq_fresh store event revision dTag hev hdt hm]
        dsimp only
        have hmem : revision ∈ sortRevisions [revision] :=
          mem_sortRevisions revision [revision] (List.mem_singleton_self revision)
        have hany : ((sortRevisions [revision]).any fun r => r.eventId == event.id) = true :=
          List.any_eq_true.mpr ⟨revision, hmem, by rw [hid]; exact beq_self_eq_true _⟩
        cases hbd : buildDocument dTag [revision] with
        | some doc =>
          rw [addRevision_eq_main _ event revision dTag (sortRevisions [revision]) hev hdt
            (by rw [notifyListeners_revisions]; dsimp only [hbd]; exact mapGet_mapSet_self _ _ _)]
          rw [if_pos hany]
          exact ⟨rfl, fun _ => rfl⟩
        | none =>
          rw [addRevision_eq_main _ event revision dTag (sortRevisions [revision]) hev hdt
            (by rw [notifyListeners_revisions]; dsimp only [hbd]; exact mapGet_mapSet_self _ _ _)]
          rw [if_pos hany]
          exact ⟨rfl, fun _ => rfl⟩
      | some l =>
        rw [addRevision_eq_main store event revision dTag l hev hdt hm]
        by_cases hdup : (l.any fun r => r.eventId == event.id) = true
        · rw [if_pos hdup]
          dsimp only
          rw [addRevision_eq_main store event revision dTag l hev hdt hm]
          rw [if_pos hdup]
          exact ⟨rfl, fun _ => rfl⟩
        · rw [if_neg hdup]
          cases hfc : findConflict dTag (referencedOf l revision)
              (parseRevisionId revision.revisionId) l with
          | some reason =>
            dsimp only
            rw [addRevision_eq_main store event revision dTag l hev hdt hm]
            rw [if_neg hdup, hfc]
            refine ⟨rfl, fun h => ?_⟩
            simp at h
          | none =>
            dsimp only
            have hmem : revision ∈ sortRevisions (pruneDominated (referencedOf l revision)
                (parseRevisionId revision.revisionId) l ++ [revision]) :=
              mem_sortRevisions _ _ (List.mem_append_right _ (List.mem_singleton_self revision))
            have hany : ((sortRevisions (pruneDominated (referencedOf l revision)
                (parseRevisionId revision.revisionId) l ++ [revision])).any
                  fun r => r.eventId == event.id) = true :=
              List.any_eq_true.mpr ⟨revision, hmem, by rw [hid]; exact beq_self_eq_true _⟩
            cases hbd : buildDocument dTag (pruneDominated (referencedOf l revision)
                (parseRevisionId revision.revisionId) l ++ [revision]) with
            | some doc =>
              rw [addRevision_eq_main _ event revision dTag _ hev hdt
                (by rw [notifyListeners_revisions]; dsimp only [hbd]; exact mapGet_mapSet_self _ _ _)]
              rw [if_pos hany]
              exact ⟨rfl, fun _ => rfl⟩
            | none =>
              rw [addRevision_eq_main _ event revision dTag _ hev hdt
                (by rw [notifyListeners_revisions]; dsimp only [hbd]; exact mapGet_mapSet_self _ _ _)]
              rw [if_pos hany]
              exact ⟨rfl, fun _ => rfl⟩

/-- Witness for the amended C3: an accepted admission re-applied. -/
theorem addRevision_idempotent_witness :
    (addRevision emptyStore firstInsertedEvent).1.accepted = true ∧
    (addRevision (addRevision emptyStore firstInsertedEvent).2.1 firstInsertedEvent).2.1 =
      (addRevision emptyStore firstInsertedEvent).2.1 ∧
    (addRevision (addRevision emptyStore firstInsertedEvent).2.1 firstInsertedEvent).1.accepted = true :=
  ⟨by decide, (addRevision_idempotent emptyStore firstInsertedEvent).1,
   (addRevision_idempotent emptyStore firstInsertedEvent).2 (by decide)⟩

/-- The C4 scenario, step 1: create `doc-1` with content `"hello"` (the
signed envelope's id and timestamp are the external collaborator's; two
distinct publishes yield distinct event ids). -/
def e2eStep1 : Except String (Option Document) × DocumentStore :=
  createDocument emptyStore "doc-1" "hello" "event-1" 0

/-- The C4 scenario, step 2: update `doc-1` to `"world"`. -/
def e2eStep2 : Except String (Option Document) × DocumentStore :=
  updateDocument e2eStep1.2 "doc-1" "world" "event-2" 1

set_option maxRecDepth 100000

/-- C4: end-to-end.  Creating `doc-1` with `"hello"` yields the
generation-1 revision id `1-<first 32 hex chars of SHA-256("hello")>`
(concretely `1-2cf24dba5fb0a30e26e83b2ac5b9e29e`); updating to
`"world"` yields the generation-2 id
`2-<first 32 hex chars of SHA-256(prev ++ ":" ++ SHA-256("world") hex)>`
where `prev` is the generation-1 revision id (the value §4.1's
`makeRevisionId` feeds to `computeHash` as the previous hash), with the
generation-1 id as sole parent; afterwards the materialized content is
`"world"` and the history holds exactly 2 revisions. -/
theorem end_to_end_create_update :
    createRevisionId (some 1) none "hello" = "1-" ++ strTake 32 (sha256Hex "hello") ∧
    createRevisionId (some 1) none "hello" = "1-2cf24dba5fb0a30e26e83b2ac5b9e29e" ∧
    (getDocument e2eStep1.2 "doc-1").map (fun d => d.revisionId) =
      some (createRevisionId (some 1) none "hello") ∧
    (getDocument e2eStep2.2 "doc-1").map (fun d => d.revisionId) =
      some ("2-" ++ strTake 32 (sha256Hex
        (("1-" ++ strTake 32 (sha256Hex "hello")) ++ ":" ++ sha256Hex "world"))) ∧
    (getDocument e2eStep2.2 "doc-1").map (fun d => d.revisionId) =
      some "2-21e1870b9fc3bf1417fe353e5cede6ad" ∧
    (getDocument e2eStep2.2 "doc-1").map (fun d => d.prevRevisionIds) =
      some ["1-2cf24dba5fb0a30e26e83b2ac5b9e29e"] ∧
    (getDocument e2eStep2.2 "doc-1").map (fun d => d.content) = some "world" ∧
    (getRevisions e2eStep2.2 "doc-1").length = 2 :=
  ⟨rfl, rfl, rfl, rfl, rfl, rfl, rfl, rfl⟩

/-- A document revision event as built by the orchestrator's tag
builder. -/
def docEvent (dTag revId : String) (parents : List String)
    (content eid : String) (ts : Int) : Event :=
  { id := eid, kind := DOC_KIND, content := content,
    tags := createDocumentTags dTag revId parents false, created_at := ts }

theorem vtags_filter_map (ps : List String) :
    ((ps.map (fun p => ["v", p])).filter (fun t => t.head? == some "v")).map
      (fun t => (t[1]?).getD "") = ps := by
  induction ps with
  | nil => rfl
  | cons p rest ih => simp [ih]

theorem vtags_no_deleted (ps : List String) :
    (ps.map (fun p => ["v", p])).any (fun t => t.head? == some "deleted") = false := by
  induction ps with
  | nil => rfl
  | cons p rest ih => simp [ih]

theorem docEvent_dTag (dTag revId : String) (ps : List String) (c eid : String)
    (ts : Int) (hd : dTag ≠ "") :
    jsTruthy (((docEvent dTag revId ps c eid ts).tags.find?
        (fun t => t.head? == some "d")).bind (fun t => t[1]?)) = some dTag := by
  unfold docEvent createDocumentTags
  simp [jsTruthy, hd]

theorem eventToRevision_docEvent (dTag revId : String) (ps : List String)
    (c eid : String) (ts : Int) (hd : dTag ≠ "") (hi : revId ≠ "") :
    eventToRevision (docEvent dTag revId ps c eid ts) =
      some { revisionId := revId, content := c, prevRevisionIds := ps,
             createdAt := ts, eventId := eid, deleted := false } := by
  unfold eventToRevision docEvent createDocumentTags DOC_KIND
  simp [jsTruthy, hd, hi, vtags_filter_map, vtags_no_deleted]
theorem parseRevisionId_one (h : String) (hh : '-' ∉ h.data) :
    parseRevisionId ("1-" ++ h) = ⟨some 1, h⟩ := by
  rw [show ("1-" ++ h : String) = "1" ++ "-" ++ h from rfl]
  rw [parseRevisionId_concat "1" h (by decide) hh]
  simp only [ParsedRevisionId.mk.injEq]
  exact ⟨by decide, trivial⟩

theorem parseRevisionId_two (h : String) (hh : '-' ∉ h.data) :
    parseRevisionId ("2-" ++ h) = ⟨some 2, h⟩ := by
  rw [show ("2-" ++ h : String) = "2" ++ "-" ++ h from rfl]
  rw [parseRevisionId_concat "2" h (by decide) hh]
  simp only [ParsedRevisionId.mk.injEq]
  exact ⟨by decide, trivial⟩

theorem ordBeq_lt_gt : (Ordering.lt == Ordering.gt) = false := rfl

theorem ordBeq_eq_gt : (Ordering.eq == Ordering.gt) = false := rfl

theorem ordBeq_gt_gt : (Ordering.gt == Ordering.gt) = true := rfl

theorem two_ne_one (x y : String) : ("2-" ++ x) ≠ ("1-" ++ y) := by
  intro h
  have hd := congrArg String.data h
  rw [string_data_append, string_data_append] at hd
  simp at hd

theorem one_ne_empty (x : String) : ("1-" ++ x) ≠ "" := by
  intro h
  have hd := congrArg String.data h
  rw [string_data_append] at hd
  simp at hd

theorem two_ne_empty (x : String) : ("2-" ++ x) ≠ "" := by
  intro h
  have hd := congrArg String.data h
  rw [string_data_append] at hd
  simp at hd

theorem two_prefix_inj (x y : String) (h : x ≠ y) : ("2-" ++ x) ≠ ("2-" ++ y) := by
  intro he
  apply h
  have hd := congrArg String.data he
  rw [string_data_append, string_data_append] at hd
  simp at hd
  cases x
  cases y
  simp_all
def rev1Rec (h1 c1 e1 : String) (t1 : Int) : DocumentRevision :=
  { revisionId := "1-" ++ h1, content := c1, prevRevisionIds := [],
    createdAt := t1, eventId := e1, deleted := false }

def rev2Rec (h1 ha ca ea : String) (ta : Int) : DocumentRevision :=
  { revisionId := "2-" ++ ha, content := ca, prevRevisionIds := ["1-" ++ h1],
    createdAt := ta, eventId := ea, deleted := false }

def docOf (dTag : String) (r : DocumentRevision) : Document :=
  { id := dTag, content := r.content, revisionId := r.revisionId,
    prevRevisionIds := r.prevRevisionIds, createdAt := r.createdAt,
    eventId := r.eventId, deleted := r.deleted }

def storeOne (dTag : String) (r : DocumentRevision) : DocumentStore :=
  { documents := [(dTag, docOf dTag r)], revisions := [(dTag, [r])],
    cachedDocuments := [docOf dTag r] }

def storePair (dTag : String) (w r1 : DocumentRevision) : DocumentStore :=
  { documents := [(dTag, docOf dTag w)], revisions := [(dTag, [w, r1])],
    cachedDocuments := [docOf dTag w] }

def addAll (store : DocumentStore) (events : List Event) : DocumentStore :=
  events.foldl (fun s e => (addRevision s e).2.1) store

def gen1Event (dTag h1 c1 e1 : String) (t1 : Int) : Event :=
  docEvent dTag ("1-" ++ h1) [] c1 e1 t1

def gen2Event (dTag h1 ha ca ea : String) (ta : Int) : Event :=
  docEvent dTag ("2-" ++ ha) ["1-" ++ h1] ca ea ta

theorem step_empty_gen1 (dTag h1 c1 e1 : String) (t1 : Int) (hd : dTag ≠ "") :
    addRevision emptyStore (gen1Event dTag h1 c1 e1 t1) =
      ({ accepted := true, reason := none }, storeOne dTag (rev1Rec h1 c1 e1 t1), true) := by
  rw [gen1Event, addRevision_eq_fresh emptyStore _ (rev1Rec h1 c1 e1 t1) dTag
    (eventToRevision_docEvent dTag _ [] c1 e1 t1 hd (one_ne_empty h1))
    (docEvent_dTag dTag _ [] c1 e1 t1 hd) rfl]
  simp [storeOne, docOf, rev1Rec, buildDocument, selectWinningRevision, sortRevisions,
    insertSorted, mapSet, notifyListeners, mapValues, emptyStore]

theorem step_empty_gen2 (dTag h1 ha ca ea : String) (ta : Int) (hd : dTag ≠ "") :
    addRevision emptyStore (gen2Event dTag h1 ha ca ea ta) =
      ({ accepted := true, reason := none }, storeOne dTag (rev2Rec h1 ha ca ea ta), true) := by
  rw [gen2Event, addRevision_eq_fresh emptyStore _ (rev2Rec h1 ha ca ea ta) dTag
    (eventToRevision_docEvent dTag _ _ ca ea ta hd (two_ne_empty ha))
    (docEvent_dTag dTag _ _ ca ea ta hd) rfl]
  simp [storeOne, docOf, rev2Rec, buildDocument, selectWinningRevision, sortRevisions,
    insertSorted, mapSet, notifyListeners, mapValues, emptyStore]
theorem step_one1_gen2 (dTag h1 ha c1 ca e1 ea : String) (t1 ta : Int)
    (hd : dTag ≠ "") (hh1 : '-' ∉ h1.data) (hha : '-' ∉ ha.data) (hne : ea ≠ e1) :
    addRevision (storeOne dTag (rev1Rec h1 c1 e1 t1)) (gen2Event dTag h1 ha ca ea ta) =
      ({ accepted := true, reason := none },
        storePair dTag (rev2Rec h1 ha ca ea ta) (rev1Rec h1 c1 e1 t1), true) := by
  rw [gen2Event, addRevision_eq_main _ _ (rev2Rec h1 ha ca ea ta) dTag [rev1Rec h1 c1 e1 t1]
    (eventToRevision_docEvent dTag _ _ ca ea ta hd (two_ne_empty ha))
    (docEvent_dTag dTag _ _ ca ea ta hd) (by simp [storeOne, mapGet])]
  simp [rev1Rec, rev2Rec, storePair, storeOne, docOf, docEvent, findConflict, referencedOf,
    pruneDominated, parseRevisionId_one h1 hh1, parseRevisionId_two ha hha, genEq,
    Ne.symm hne, buildDocument, selectWinningRevision, sortRevisions, insertSorted,
    revisionLt, revisionCompare, mapSet, notifyListeners, mapValues, createDocumentTags]

theorem step_one2_gen1 (dTag h1 hb c1 cb e1 eb : String) (t1 tb : Int)
    (hd : dTag ≠ "") (hh1 : '-' ∉ h1.data) (hhb : '-' ∉ hb.data) (hne : e1 ≠ eb) :
    addRevision (storeOne dTag (rev2Rec h1 hb cb eb tb)) (gen1Event dTag h1 c1 e1 t1) =
      ({ accepted := true, reason := none },
        storePair dTag (rev2Rec h1 hb cb eb tb) (rev1Rec h1 c1 e1 t1), true) := by
  rw [gen1Event, addRevision_eq_main _ _ (rev1Rec h1 c1 e1 t1) dTag [rev2Rec h1 hb cb eb tb]
    (eventToRevision_docEvent dTag _ _ c1 e1 t1 hd (one_ne_empty h1))
    (docEvent_dTag dTag _ _ c1 e1 t1 hd) (by simp [storeOne, mapGet])]
  simp [rev1Rec, rev2Rec, storePair, storeOne, docOf, docEvent, findConflict, referencedOf,
    pruneDominated, parseRevisionId_one h1 hh1, parseRevisionId_two hb hhb, genEq,
    Ne.symm hne, buildDocument, selectWinningRevision, sortRevisions, insertSorted,
    revisionLt, revisionCompare, mapSet, notifyListeners, mapValues, createDocumentTags]
theorem step_one2_gen2_prune (dTag h1 hb ha cb ca eb ea : String) (tb ta : Int)
    (hd : dTag ≠ "") (hh1 : '-' ∉ h1.data) (hhb : '-' ∉ hb.data) (hha : '-' ∉ ha.data)
    (hne : ea ≠ eb) (hlt : charListOrd hb.data ha.data = Ordering.lt) :
    addRevision (storeOne dTag (rev2Rec h1 hb cb eb tb)) (gen2Event dTag h1 ha ca ea ta) =
      ({ accepted := true, reason := none }, storeOne dTag (rev2Rec h1 ha ca ea ta), true) := by
  rw [gen2Event, addRevision_eq_main _ _ (rev2Rec h1 ha ca ea ta) dTag [rev2Rec h1 hb cb eb tb]
    (eventToRevision_docEvent dTag _ _ ca ea ta hd (two_ne_empty ha))
    (docEvent_dTag dTag _ _ ca ea ta hd) (by simp [storeOne, mapGet])]
  simp [rev1Rec, rev2Rec, storeOne, docOf, docEvent, findConflict, referencedOf,
    pruneDominated, parseRevisionId_two ha hha, parseRevisionId_two hb hhb, genEq,
    Ne.symm hne, beq_eq_false_iff_ne.mpr (two_ne_one hb h1), two_ne_one hb h1, jsStrGt, hlt, ordBeq_lt_gt, ordBeq_eq_gt, ordBeq_gt_gt,
    buildDocument, selectWinningRevision, sortRevisions, insertSorted,
    revisionLt, revisionCompare, mapSet, notifyListeners, mapValues, createDocumentTags]

theorem step_one2_gen2_reject (dTag h1 hb ha cb ca eb ea : String) (tb ta : Int)
    (hd : dTag ≠ "") (hhb : '-' ∉ hb.data) (hha : '-' ∉ ha.data)
    (hne : ea ≠ eb) (hlt : charListOrd ha.data hb.data = Ordering.lt) :
    (addRevision (storeOne dTag (rev2Rec h1 hb cb eb tb)) (gen2Event dTag h1 ha ca ea ta)).2.1 =
      storeOne dTag (rev2Rec h1 hb cb eb tb) ∧
    (addRevision (storeOne dTag (rev2Rec h1 hb cb eb tb)) (gen2Event dTag h1 ha ca ea ta)).1.accepted = false := by
  rw [gen2Event, addRevision_eq_main _ _ (rev2Rec h1 ha ca ea ta) dTag [rev2Rec h1 hb cb eb tb]
    (eventToRevision_docEvent dTag _ _ ca ea ta hd (two_ne_empty ha))
    (docEvent_dTag dTag _ _ ca ea ta hd) (by simp [storeOne, mapGet])]
  rw [if_neg (by simp [rev2Rec, docEvent, Ne.symm hne, createDocumentTags])]
  cases hfc : findConflict dTag (referencedOf [rev2Rec h1 hb cb eb tb] (rev2Rec h1 ha ca ea ta))
      (parseRevisionId (rev2Rec h1 ha ca ea ta).revisionId) [rev2Rec h1 hb cb eb tb] with
  | some reason => exact ⟨rfl, rfl⟩
  | none =>
    exfalso
    simp [findConflict, rev2Rec, referencedOf, parseRevisionId_two ha hha,
      parseRevisionId_two hb hhb, genEq, beq_eq_false_iff_ne.mpr (two_ne_one hb h1), two_ne_one hb h1,
      jsStrGt, charListOrdSwapGt ha.data hb.data hlt, ordBeq_lt_gt, ordBeq_eq_gt, ordBeq_gt_gt] at hfc

theorem step_pair_gen2_prune (dTag h1 hb ha c1 cb ca e1 eb ea : String) (t1 tb ta : Int)
    (hd : dTag ≠ "") (hh1 : '-' ∉ h1.data) (hhb : '-' ∉ hb.data) (hha : '-' ∉ ha.data)
    (hne1 : ea ≠ e1) (hneb : ea ≠ eb) (hlt : charListOrd hb.data ha.data = Ordering.lt) :
    addRevision (storePair dTag (rev2Rec h1 hb cb eb tb) (rev1Rec h1 c1 e1 t1))
        (gen2Event dTag h1 ha ca ea ta) =
      ({ accepted := true, reason := none },
        storePair dTag (rev2Rec h1 ha ca ea ta) (rev1Rec h1 c1 e1 t1), true) := by
  rw [gen2Event, addRevision_eq_main _ _ (rev2Rec h1 ha ca ea ta) dTag
    [rev2Rec h1 hb cb eb tb, rev1Rec h1 c1 e1 t1]
    (eventToRevision_docEvent dTag _ _ ca ea ta hd (two_ne_empty ha))
    (docEvent_dTag dTag _ _ ca ea ta hd) (by simp [storePair, mapGet])]
  simp [rev1Rec, rev2Rec, storePair, docOf, docEvent, findConflict, referencedOf,
    pruneDominated, parseRevisionId_one h1 hh1, parseRevisionId_two ha hha,
    parseRevisionId_two hb hhb, genEq, Ne.symm hne1, Ne.symm hneb,
    beq_eq_false_iff_ne.mpr (two_ne_one hb h1), two_ne_one hb h1, jsStrGt, hlt, ordBeq_lt_gt, ordBeq_eq_gt, ordBeq_gt_gt,
    buildDocument, selectWinningRevision, sortRevisions, insertSorted,
    revisionLt, revisionCompare, mapSet, notifyListeners, mapValues, createDocumentTags]

theorem step_pair_gen2_reject (dTag h1 hb ha c1 cb ca e1 eb ea : String) (t1 tb ta : Int)
    (hd : dTag ≠ "") (hhb : '-' ∉ hb.data) (hha : '-' ∉ ha.data)
    (hne1 : ea ≠ e1) (hneb : ea ≠ eb) (hlt : charListOrd ha.data hb.data = Ordering.lt) :
    (addRevision (storePair dTag (rev2Rec h1 hb cb eb tb) (rev1Rec h1 c1 e1 t1))
        (gen2Event dTag h1 ha ca ea ta)).2.1 =
      storePair dTag (rev2Rec h1 hb cb eb tb) (rev1Rec h1 c1 e1 t1) ∧
    (addRevision (storePair dTag (rev2Rec h1 hb cb eb tb) (rev1Rec h1 c1 e1 t1))
        (gen2Event dTag h1 ha ca ea ta)).1.accepted = false := by
  rw [gen2Event, addRevision_eq_main _ _ (rev2Rec h1 ha ca ea ta) dTag
    [rev2Rec h1 hb cb eb tb, rev1Rec h1 c1 e1 t1]
    (eventToRevision_docEvent dTag _ _ ca ea ta hd (two_ne_empty ha))
    (docEvent_dTag dTag _ _ ca ea ta hd) (by simp [storePair, mapGet])]
  rw [if_neg (by simp [rev1Rec, rev2Rec, docEvent, Ne.symm hne1, Ne.symm hneb, createDocumentTags])]
  cases hfc : findConflict dTag
      (referencedOf [rev2Rec h1 hb cb eb tb, rev1Rec h1 c1 e1 t1] (rev2Rec h1 ha ca ea ta))
      (parseRevisionId (rev2Rec h1 ha ca ea ta).revisionId)
      [rev2Rec h1 hb cb eb tb, rev1Rec h1 c1 e1 t1] with
  | some reason => exact ⟨rfl, rfl⟩
  | none =>
    exfalso
    simp [findConflict, rev1Rec, rev2Rec, referencedOf, parseRevisionId_two ha hha,
      parseRevisionId_two hb hhb, genEq, beq_eq_false_iff_ne.mpr (two_ne_one hb h1), two_ne_one hb h1,
      jsStrGt, charListOrdSwapGt ha.data hb.data hlt, ordBeq_lt_gt, ordBeq_eq_gt, ordBeq_gt_gt] at hfc
theorem charListOrdSwapLt (a b : List Char)
    (h : charListOrd a b = Ordering.gt) : charListOrd b a = Ordering.lt := by
  induction a generalizing b with
  | nil =>
    cases b with
    | nil => simp [charListOrd] at h
    | cons y ys => simp [charListOrd] at h
  | cons x xs ih =>
    cases b with
    | nil => simp [charListOrd]
    | cons y ys =>
      simp only [charListOrd] at h ⊢
      by_cases h1 : x.toNat < y.toNat
      · simp [h1] at h
      · by_cases h2 : y.toNat < x.toNat
        · simp [h1, h2]
        · simp only [h1, h2, if_false] at h ⊢
          exact ih ys h

theorem convergence_aux (dTag h1 hL hW c1 cL cW e1 eL eW : String) (t1 tL tW : Int)
    (hd : dTag ≠ "") (hh1 : '-' ∉ h1.data) (hhL : '-' ∉ hL.data) (hhW : '-' ∉ hW.data)
    (hlt : charListOrd hL.data hW.data = Ordering.lt)
    (h1L : e1 ≠ eL) (h1W : e1 ≠ eW) (hLW : eL ≠ eW) :
    addAll emptyStore [gen1Event dTag h1 c1 e1 t1, gen2Event dTag h1 hL cL eL tL,
        gen2Event dTag h1 hW cW eW tW] =
      storePair dTag (rev2Rec h1 hW cW eW tW) (rev1Rec h1 c1 e1 t1) ∧
    addAll emptyStore [gen1Event dTag h1 c1 e1 t1, gen2Event dTag h1 hW cW eW tW,
        gen2Event dTag h1 hL cL eL tL] =
      storePair dTag (rev2Rec h1 hW cW eW tW) (rev1Rec h1 c1 e1 t1) ∧
    addAll emptyStore [gen2Event dTag h1 hL cL eL tL, gen1Event dTag h1 c1 e1 t1,
        gen2Event dTag h1 hW cW eW tW] =
      storePair dTag (rev2Rec h1 hW cW eW tW) (rev1Rec h1 c1 e1 t1) ∧
    addAll emptyStore [gen2Event dTag h1 hL cL eL tL, gen2Event dTag h1 hW cW eW tW,
        gen1Event dTag h1 c1 e1 t1] =
      storePair dTag (rev2Rec h1 hW cW eW tW) (rev1Rec h1 c1 e1 t1) ∧
    addAll emptyStore [gen2Event dTag h1 hW cW eW tW, gen1Event dTag h1 c1 e1 t1,
        gen2Event dTag h1 hL cL eL tL] =
      storePair dTag (rev2Rec h1 hW cW eW tW) (rev1Rec h1 c1 e1 t1) ∧
    addAll emptyStore [gen2Event dTag h1 hW cW eW tW, gen2Event dTag h1 hL cL eL tL,
        gen1Event dTag h1 c1 e1 t1] =
      storePair dTag (rev2Rec h1 hW cW eW tW) (rev1Rec h1 c1 e1 t1) ∧
    (addRevision (storePair dTag (rev2Rec h1 hW cW eW tW) (rev1Rec h1 c1 e1 t1))
        (gen2Event dTag h1 hL cL eL tL)).1.accepted = false := by
  refine ⟨?_, ?_, ?_, ?_, ?_, ?_, ?_⟩
  · unfold addAll
    simp only [List.foldl_cons, List.foldl_nil]
    rw [step_empty_gen1 dTag h1 c1 e1 t1 hd]
    dsimp only
    rw [step_one1_gen2 dTag h1 hL c1 cL e1 eL t1 tL hd hh1 hhL (Ne.symm h1L)]
    dsimp only
    rw [step_pair_gen2_prune dTag h1 hL hW c1 cL cW e1 eL eW t1 tL tW hd hh1 hhL hhW
      (Ne.symm h1W) (Ne.symm hLW) hlt]
  · unfold addAll
    simp only [List.foldl_cons, List.foldl_nil]
    rw [step_empty_gen1 dTag h1 c1 e1 t1 hd]
    dsimp only
    rw [step_one1_gen2 dTag h1 hW c1 cW e1 eW t1 tW hd hh1 hhW (Ne.symm h1W)]
    dsimp only
    rw [(step_pair_gen2_reject dTag h1 hW hL c1 cW cL e1 eW eL t1 tW tL hd hhW hhL
      (Ne.symm h1L) hLW hlt).1]
  · unfold addAll
    simp only [List.foldl_cons, List.foldl_nil]
    rw [step_empty_gen2 dTag h1 hL cL eL tL hd]
    dsimp only
    rw [step_one2_gen1 dTag h1 hL c1 cL e1 eL t1 tL hd hh1 hhL h1L]
    dsimp only
    rw [step_pair_gen2_prune dTag h1 hL hW c1 cL cW e1 eL eW t1 tL tW hd hh1 hhL hhW
      (Ne.symm h1W) (Ne.symm hLW) hlt]
  · unfold addAll
    simp only [List.foldl_cons, List.foldl_nil]
    rw [step_empty_gen2 dTag h1 hL cL eL tL hd]
    dsimp only
    rw [step_one2_gen2_prune dTag h1 hL hW cL cW eL eW tL tW hd hh1 hhL hhW
      (Ne.symm hLW) hlt]
    dsimp only
    rw [step_one2_gen1 dTag h1 hW c1 cW e1 eW t1 tW hd hh1 hhW h1W]
  · unfold addAll
    simp only [List.foldl_cons, List.foldl_nil]
    rw [step_empty_gen2 dTag h1 hW cW eW tW hd]
    dsimp only
    rw [step_one2_gen1 dTag h1 hW c1 cW e1 eW t1 tW hd hh1 hhW h1W]
    dsimp only
    rw [(step_pair_gen2_reject dTag h1 hW hL c1 cW cL e1 eW eL t1 tW tL hd hhW hhL
      (Ne.symm h1L) hLW hlt).1]
  · unfold addAll
    simp only [List.foldl_cons, List.foldl_nil]
    rw [step_empty_gen2 dTag h1 hW cW eW tW hd]
    dsimp only
    rw [(step_one2_gen2_reject dTag h1 hW hL cW cL eW eL tW tL hd hhW hhL
      hLW hlt).1]
    rw [step_one2_gen1 dTag h1 hW c1 cW e1 eW t1 tW hd hh1 hhW h1W]
  · exact (step_pair_gen2_reject dTag h1 hW hL c1 cW cL e1 eW eL t1 tW tL hd hhW hhL
      (Ne.symm h1L) hLW hlt).2
/-- The convergence property of claim C1, for the scenario R1 =
generation 1 (hash `h1`, no parents), R2/R3 = generation 2 with sole
parent R1 and hashes `h2`/`h3`: all six arrival permutations produce
the same final store, whose winner is the one of R2/R3 with the
lexicographically higher hash; the loser is absent from the final
history and is rejected when offered to the converged store. -/
def orderIndependenceProp (dTag h1 h2 h3 c1 c2 c3 e1 e2 e3 : String)
    (t1 t2 t3 : Int) : Prop :=
  let E1 := gen1Event dTag h1 c1 e1 t1
  let E2 := gen2Event dTag h1 h2 c2 e2 t2
  let E3 := gen2Event dTag h1 h3 c3 e3 t3
  let w := if jsStrGt h3 h2 then rev2Rec h1 h3 c3 e3 t3 else rev2Rec h1 h2 c2 e2 t2
  let loseEvent := if jsStrGt h3 h2 then E2 else E3
  let loseId := if jsStrGt h3 h2 then "2-" ++ h2 else "2-" ++ h3
  let S := storePair dTag w (rev1Rec h1 c1 e1 t1)
  addAll emptyStore [E1, E2, E3] = S ∧
  addAll emptyStore [E1, E3, E2] = S ∧
  addAll emptyStore [E2, E1, E3] = S ∧
  addAll emptyStore [E2, E3, E1] = S ∧
  addAll emptyStore [E3, E1, E2] = S ∧
  addAll emptyStore [E3, E2, E1] = S ∧
  getDocument S dTag = some (docOf dTag w) ∧
  (getRevisions S dTag).map (fun r => r.revisionId) = [w.revisionId, "1-" ++ h1] ∧
  loseId ∉ (getRevisions S dTag).map (fun r => r.revisionId) ∧
  (addRevision S loseEvent).1.accepted = false

/-- C1: order independence.  For every document ID and revisions R1
(generation 1, hash `h1`, no parents), R2 and R3 (generation 2, sole
parent R1, distinct separator-free hashes `h2` and `h3`, distinct event
ids), admitting them via `DocumentStore.addRevision` in any of the six
arrival permutations converges to the same final store; the winner of
`getDocument` is the one of R2/R3 with the lexicographically higher
hash, the loser is pruned from (or never admitted to) the final
history, and re-offering the loser to the converged store is
rejected. -/
theorem addRevision_order_independent (dTag h1 h2 h3 c1 c2 c3 e1 e2 e3 : String)
    (t1 t2 t3 : Int)
    (hd : dTag ≠ "") (hh1 : '-' ∉ h1.data) (hh2 : '-' ∉ h2.data) (hh3 : '-' ∉ h3.data)
    (hne : h2 ≠ h3) (h12 : e1 ≠ e2) (h13 : e1 ≠ e3) (h23 : e2 ≠ e3) :
    orderIndependenceProp dTag h1 h2 h3 c1 c2 c3 e1 e2 e3 t1 t2 t3 := by
  have hdata : h2.data ≠ h3.data := fun hde => hne (by cases h2; cases h3; cases hde; rfl)
  cases hor : charListOrd h2.data h3.data with
  | eq => exact absurd ((charListOrd_eq_iff _ _).mp hor) hdata
  | lt =>
    have hgt : jsStrGt h3 h2 = true := by
      simp [jsStrGt, charListOrdSwapGt _ _ hor, ordBeq_gt_gt]
    unfold orderIndependenceProp
    simp only [hgt, if_true]
    obtain ⟨a1, a2, a3, a4, a5, a6, arej⟩ :=
      convergence_aux dTag h1 h2 h3 c1 c2 c3 e1 e2 e3 t1 t2 t3
        hd hh1 hh2 hh3 hor h12 h13 h23
    refine ⟨a1, a2, a3, a4, a5, a6, ?_, ?_, ?_, arej⟩
    · simp [getDocument, storePair, mapGet]
    · simp [getRevisions, storePair, mapGet, rev2Rec, rev1Rec]
    · simp [getRevisions, storePair, mapGet, rev2Rec, rev1Rec,
        two_prefix_inj h2 h3 hne, two_ne_one]
  | gt =>
    have hlt2 : charListOrd h3.data h2.data = Ordering.lt := charListOrdSwapLt _ _ hor
    have hgt : jsStrGt h3 h2 = false := by simp [jsStrGt, hlt2, ordBeq_lt_gt]
    unfold orderIndependenceProp
    simp only [hgt, Bool.false_eq_true, if_false]
    obtain ⟨a1, a2, a3, a4, a5, a6, arej⟩ :=
      convergence_aux dTag h1 h3 h2 c1 c3 c2 e1 e3 e2 t1 t3 t2
        hd hh1 hh3 hh2 hlt2 h13 h12 (Ne.symm h23)
    refine ⟨a2, a1, a5, a6, a3, a4, ?_, ?_, ?_, arej⟩
    · simp [getDocument, storePair, mapGet]
    · simp [getRevisions, storePair, mapGet, rev2Rec, rev1Rec]
    · simp [getRevisions, storePair, mapGet, rev2Rec, rev1Rec,
        two_prefix_inj h3 h2 (Ne.symm hne), two_ne_one]
/-- Witness for C1 at hashes `aa`, `bb`, `cc` (winner `cc`). -/
theorem addRevision_order_independent_witness :
    ("doc" : String) ≠ "" ∧ '-' ∉ ("aa" : String).data ∧ '-' ∉ ("bb" : String).data ∧
    '-' ∉ ("cc" : String).data ∧ ("bb" : String) ≠ "cc" ∧ ("e1" : String) ≠ "e2" ∧
    ("e1" : String) ≠ "e3" ∧ ("e2" : String) ≠ "e3" ∧
    orderIndependenceProp "doc" "aa" "bb" "cc" "c1" "c2" "c3" "e1" "e2" "e3" 0 1 2 :=
  ⟨by decide, by decide, by decide, by decide, by decide, by decide, by decide, by decide,
   addRevision_order_independent "doc" "aa" "bb" "cc" "c1" "c2" "c3" "e1" "e2" "e3" 0 1 2
     (by decide) (by decide) (by decide) (by decide) (by decide) (by decide) (by decide)
     (by decide)⟩

end NipDb
